import Mathlib

/-!
Shallow embedding of the screenshot-to-discord bot (`main.py`, with the older
`updated.py` sharing the same monitoring/cleanup logic).  Pure fragments of the
Python code are translated to executable Lean functions; the ambient effects
(filesystem, HTTP, window enumeration, wall clock) are passed in explicitly as
values describing what the outside world would answer.
-/

namespace ScreenshotBot

/-- A single apostrophe character, used to build the quoted fragments that the
Python code produces with f-strings. -/
def sq : String := String.mk ['\x27']

/-! ## Python `in` substring test (`needle in haystack`) -/

/-- Helper for the Python substring operator: walks the haystack and checks at
each position whether the needle is a prefix.  `[] in h` is `true`, matching
Python where the empty string is contained in every string. -/
def strContainsAux (needle : List Char) : List Char → Bool
  | [] => needle.isEmpty
  | c :: rest => needle.isPrefixOf (c :: rest) || strContainsAux needle rest

/-- Python `needle in hay` on strings: contiguous-substring containment. -/
def strContains (hay needle : String) : Bool :=
  strContainsAux needle.data hay.data

/-- Python `s.lower()` on the characters of a string (ASCII-faithful). -/
def strLower (s : String) : String := String.mk (s.data.map Char.toLower)

/-- Python `proc_name.replace(".exe", "")`: every non-overlapping occurrence
of `.exe` removed, scanning left to right. -/
def stripExe : List Char → List Char
  | '.' :: 'e' :: 'x' :: 'e' :: rest => stripExe rest
  | c :: rest => c :: stripExe rest
  | [] => []

/-! ## Decimal rendering of naturals (Python `str(int)` / `%d`) -/

/-- One decimal digit as a character. -/
def digitChar (n : Nat) : Char :=
  match n with
  | 0 => '0' | 1 => '1' | 2 => '2' | 3 => '3' | 4 => '4'
  | 5 => '5' | 6 => '6' | 7 => '7' | 8 => '8' | _ => '9'

/-- Fuel-based digit accumulation, most significant digit first. -/
def digitsGo : Nat → Nat → List Char → List Char
  | 0, _, acc => acc
  | fuel + 1, m, acc =>
    if m = 0 then acc else digitsGo fuel (m / 10) (digitChar (m % 10) :: acc)

/-- Decimal string of a natural number, as Python `str` renders it. -/
def natToStr (n : Nat) : String :=
  if n = 0 then "0" else String.mk (digitsGo n n [])

/-! ## Wall-clock model: `datetime.now()` and the strftime patterns used -/

/-- The components of `datetime.now()` that `format_message` reads.  A real
`datetime` always has `1 ≤ month ≤ 12`; theorems that need the month name
carry that bound as a hypothesis. -/
structure PyDateTime where
  year : Nat
  month : Nat
  day : Nat
  hour : Nat
  minute : Nat
  second : Nat
  deriving DecidableEq

/-- Zero-padded two-digit field (`%m`, `%d`, `%H`, `%M`, `%S`). -/
def pad2 (n : Nat) : String :=
  if n < 10 then "0" ++ natToStr n else natToStr n

/-- Year field `%Y` (zero-padded to four digits for years below 1000). -/
def pad4 (n : Nat) : String :=
  if n < 10 then "000" ++ natToStr n
  else if n < 100 then "00" ++ natToStr n
  else if n < 1000 then "0" ++ natToStr n
  else natToStr n

/-- `strftime("%Y-%m-%d")`. -/
def dateStr (dt : PyDateTime) : String :=
  pad4 dt.year ++ "-" ++ pad2 dt.month ++ "-" ++ pad2 dt.day

/-- `strftime("%H:%M:%S")`. -/
def timeStr (dt : PyDateTime) : String :=
  pad2 dt.hour ++ ":" ++ pad2 dt.minute ++ ":" ++ pad2 dt.second

/-- `strftime("%Y-%m-%d %H:%M:%S")`. -/
def timestampStr (dt : PyDateTime) : String :=
  dateStr dt ++ " " ++ timeStr dt

/-- Day of week by Sakamoto's method: 0 = Sunday, ..., 6 = Saturday. -/
def weekdayOf (dt : PyDateTime) : Nat :=
  let t : List Nat := [0, 3, 2, 5, 0, 3, 5, 1, 4, 6, 2, 4]
  let y := if dt.month < 3 then dt.year - 1 else dt.year
  (y + y / 4 - y / 100 + y / 400 + t.getD (dt.month - 1) 0 + dt.day) % 7

/-- English weekday name, `strftime("%A")`. -/
def dayName (k : Nat) : String :=
  match k with
  | 0 => "Sunday" | 1 => "Monday" | 2 => "Tuesday" | 3 => "Wednesday"
  | 4 => "Thursday" | 5 => "Friday" | _ => "Saturday"

/-- English month name, `strftime("%B")` (months are numbered from 1). -/
def monthName (m : Nat) : String :=
  match m with
  | 1 => "January" | 2 => "February" | 3 => "March" | 4 => "April"
  | 5 => "May" | 6 => "June" | 7 => "July" | 8 => "August"
  | 9 => "September" | 10 => "October" | 11 => "November" | 12 => "December"
  | _ => ""

/-! ## `format_message`: the `variables` dict and Python `str.format` -/

/-- The `variables` dictionary built inside `format_message` (main.py lines
172-182), as a lookup function.  `none` models a key absent from the dict. -/
def varsOf (app_name : String) (dt : PyDateTime) (n : String) : Option String :=
  if n = "app_name" then some app_name
  else if n = "timestamp" then some (timestampStr dt)
  else if n = "date" then some (dateStr dt)
  else if n = "time" then some (timeStr dt)
  else if n = "day" then some (dayName (weekdayOf dt))
  else if n = "month" then some (monthName dt.month)
  else if n = "year" then some (pad4 dt.year)
  else none

/-- The exceptions Python `str.format` can raise on the templates we model. -/
inductive FmtErr where
  /-- `KeyError(name)`: a keyword replacement field whose name is not a key
  of the `variables` dict. -/
  | keyError (name : String)
  /-- `IndexError`: a positional replacement field (empty or all-digit name)
  with no positional arguments supplied. -/
  | indexError
  /-- `ValueError`: an opening brace never closed. -/
  | singleLbrace
  /-- `ValueError`: a closing brace with no matching opening brace. -/
  | singleRbrace
  /-- A replacement field using attribute access, item access, a conversion,
  or a format spec outside the supported subset (see `applySpec`); folded
  into the generic `except Exception` branch of `format_message`. -/
  | badField
  deriving DecidableEq

/-- Decimal value of a digit string (the precision of a format spec). -/
def parseNatDigits (l : List Char) : Nat :=
  l.foldl (fun acc c => acc * 10 + (c.toNat - 48)) 0

/-- CPython `str.__format__` on the format specs the model supports: the
empty spec and the plain `s` presentation type return the value unchanged,
and a precision `.N` (optionally followed by `s`) truncates the value to its
first `N` characters — so `.0s` yields the empty string.  Any other spec
(width, fill, alignment, ...) is outside the modelled subset and is folded
into the generic exception branch of `format_message`. -/
def applySpec (spec value : List Char) : Except FmtErr (List Char) :=
  match spec with
  | [] => .ok value
  | ['s'] => .ok value
  | '.' :: rest =>
    let digits := rest.takeWhile Char.isDigit
    let after := rest.drop digits.length
    if digits.isEmpty then .error .badField
    else if after = [] ∨ after = ['s'] then .ok (value.take (parseNatDigits digits))
    else .error .badField
  | _ => .error .badField

/-- Resolution of one replacement field against the keyword dict, following
CPython: the argument name is the text before any `.`, `[`, `!` or `:`; an
empty or all-digit name is a positional index (here always `IndexError`,
since `format` is called with keyword arguments only); any other name is
looked up first, raising `KeyError(name)` when absent; a `:` then applies
the format spec via `applySpec`, while a `!` conversion or `.`/`[` access on
a resolved name is outside the modelled subset. -/
def resolveField (vars : String → Option String) (field : List Char) :
    Except FmtErr (List Char) :=
  let name := field.takeWhile (fun c => !(c == '.' || c == '[' || c == '!' || c == ':'))
  let rest := field.drop name.length
  if name.isEmpty || name.all Char.isDigit then .error .indexError
  else
    match vars (String.mk name) with
    | none => .error (.keyError (String.mk name))
    | some v =>
      match rest with
      | [] => .ok v.data
      | ':' :: spec => applySpec spec v.data
      | _ => .error .badField

/-- One-pass model of Python `str.format(**variables)`.  The first argument
is `none` while scanning literal text and `some acc` (accumulated field
characters, reversed) inside a replacement field.  `\x7b\x7b` and `\x7d\x7d`
are the escaped literal braces. -/
def goFmtM (vars : String → Option String) :
    Option (List Char) → List Char → Except FmtErr (List Char)
  | none, [] => .ok []
  | some _, [] => .error .singleLbrace
  | none, '\x7b' :: '\x7b' :: r => (fun out => '\x7b' :: out) <$> goFmtM vars none r
  | none, '\x7b' :: r => goFmtM vars (some []) r
  | none, '\x7d' :: '\x7d' :: r => (fun out => '\x7d' :: out) <$> goFmtM vars none r
  | none, '\x7d' :: _ => .error .singleRbrace
  | none, c :: r => (fun out => c :: out) <$> goFmtM vars none r
  | some acc, '\x7d' :: r => do
    let v ← resolveField vars acc.reverse
    let out ← goFmtM vars none r
    pure (v ++ out)
  | some acc, c :: r => goFmtM vars (some (c :: acc)) r

/-- Text of the non-`KeyError` exceptions as `str(e)` renders them
(representative of the CPython messages). -/
def fmtErrText : FmtErr → String
  | .keyError name => sq ++ name ++ sq
  | .indexError => "Replacement index 0 out of range for positional args tuple"
  | .singleLbrace => "Single " ++ sq ++ "\x7b" ++ sq ++ " encountered in format string"
  | .singleRbrace => "Single " ++ sq ++ "\x7d" ++ sq ++ " encountered in format string"
  | .badField => "unsupported replacement field"

/-- `format_message` (main.py lines 172-189): formats `custom_message` with
the `variables` dict; a `KeyError` is reported as an unknown-variable message
and any other exception through the generic formatting-error message. -/
def format_message (app_name custom_message : String) (dt : PyDateTime) : String :=
  match goFmtM (varsOf app_name dt) none custom_message.data with
  | .ok out => String.mk out
  | .error (.keyError name) =>
    "Error in message format: Unknown variable " ++ sq ++ name ++ sq
  | .error e => "Error formatting message: " ++ fmtErrText e

/-! ## WindowLocator: `find_application_window` (Windows branch) -/

/-- A window as reported by `pygetwindow.getAllWindows()`: the fields the
title pass of `_find_window_windows` reads. -/
structure GWWindow where
  title : String
  visible : Bool
  left : Int
  top : Int
  width : Int
  height : Int
  minimized : Bool
  deriving DecidableEq

/-- A `psutil` process entry (`proc.info` with `name` and `pid`). -/
structure ProcInfo where
  name : String
  pid : Nat
  deriving DecidableEq

/-- A window reachable through `win32gui.EnumWindows`, with the fields the
process-pass callback reads (`GetWindowRect` gives left/top/right/bottom). -/
structure ProcWindow where
  title : String
  visible : Bool
  left : Int
  top : Int
  right : Int
  bottom : Int
  deriving DecidableEq

/-- Snapshot of the OS enumeration state during one locate call: the
pygetwindow list, the psutil process list, and for each pid the windows
`EnumWindows` would attribute to it, in enumeration order. -/
structure WinEnv where
  windows : List GWWindow
  procs : List ProcInfo
  procWindows : Nat → List ProcWindow

/-- Result of `find_application_window`: either a pygetwindow window from the
title pass or a `WindowObj` built in the process pass. -/
inductive FoundWindow where
  | byTitle (w : GWWindow)
  | byProc (pid : Nat) (w : ProcWindow)
  deriving DecidableEq

/-- The title-pass filter (main.py lines 207-212): non-empty title (Python
truthiness of `window.title`), app name contained in the lowercased title,
visible, and positive width and height. -/
def titleMatch (app_name : String) (w : GWWindow) : Bool :=
  w.title != "" && strContains (strLower w.title) app_name && w.visible &&
    decide (0 < w.width) && decide (0 < w.height)

/-- The process-pass name test (main.py line 225): app name contained in the
lowercased process name, or the name with every `".exe"` removed equal to the
app name. -/
def procNameMatches (app_name : String) (p : ProcInfo) : Bool :=
  let proc_name := strLower p.name
  strContains proc_name app_name || (String.mk (stripExe proc_name.data) == app_name)

/-- What the process pass yields for one process: if its name matches, the
first of its windows with a non-empty title that is visible (the
`enum_windows_callback` condition), wrapped as a `WindowObj`. -/
def procHit (app_name : String) (env : WinEnv) (p : ProcInfo) : Option FoundWindow :=
  if procNameMatches app_name p then
    ((env.procWindows p.pid).find? (fun w => w.title != "" && w.visible)).map
      (.byProc p.pid)
  else none

/-- `_find_window_windows` (main.py lines 200-275): the title pass keeps the
windows passing `titleMatch` and returns the first non-minimized one, or the
first match if all are minimized; only when the title pass finds nothing does
the process pass run, returning the first hit; `None` when both passes fail.
Exceptions from the OS enumeration are out of this snapshot model. -/
def find_application_window (app_name : String) (env : WinEnv) : Option FoundWindow :=
  let matching_windows := env.windows.filter (titleMatch app_name)
  match matching_windows with
  | m :: rest => some (.byTitle (((m :: rest).find? (fun w => !w.minimized)).getD m))
  | [] => env.procs.findSome? (procHit app_name env)

/-! ## ScreenCapturer: `take_screenshot` / `_screenshot_windows` -/

/-- Which capture strategy `_screenshot_windows` ends up using. -/
inductive CaptureMethod where
  /-- The BitBlt direct window capture (first try block). -/
  | direct
  /-- `pyautogui.screenshot(region=(left, top, width, height))`. -/
  | region (left top width height : Int)
  /-- `pyautogui.screenshot()` of the whole screen. -/
  | fullscreen
  deriving DecidableEq

/-- The region-fallback arithmetic of `_screenshot_windows` (main.py lines
432-448): degenerate original geometry goes straight to full screen;
otherwise the rectangle is shrunk by `margin = 8` on every side plus 30 more
at the top, and a degenerate shrunk rectangle also falls back to full
screen. -/
def region_capture_method (left top width height : Int) : CaptureMethod :=
  if width ≤ 0 ∨ height ≤ 0 then .fullscreen
  else
    let margin : Int := 8
    let left := left + margin
    let top := top + margin + 30
    let width := width - margin * 2
    let height := height - (margin * 2 + 30)
    if 0 < width ∧ 0 < height then .region left top width height
    else .fullscreen

/-- `_screenshot_windows` (main.py lines 365-454) given a located window:
when the direct BitBlt capture succeeds (`directOk`, abstracting the win32
calls) the file is saved from the blitted buffer; otherwise the
region/full-screen fallback runs.  Every branch saves to `filename` and
returns it with the method's status message. -/
def screenshot_windows (directOk : Bool) (left top width height : Int)
    (filename : String) : (Option String × String) × CaptureMethod :=
  if directOk then ((some filename, "✓ Used direct window capture method"), .direct)
  else ((some filename, "✓ Used screen region capture method"),
    region_capture_method left top width height)

/-- The output path `screenshots/screenshot_<app_name>_<timestamp>.png`
(main.py line 353); `ts` is the `%Y%m%d_%H%M%S` timestamp string. -/
def screenshotFilename (app_name ts : String) : String :=
  "screenshots/screenshot_" ++ app_name ++ "_" ++ ts ++ ".png"

/-- Geometry of a located window as `_screenshot_windows` reads it:
`(left, top, width, height)`; a process-pass `WindowObj` derives width and
height from the `GetWindowRect` rectangle. -/
def boundsOf : FoundWindow → Int × Int × Int × Int
  | .byTitle w => (w.left, w.top, w.width, w.height)
  | .byProc _ w => (w.left, w.top, w.right - w.left, w.bottom - w.top)

/-- `take_screenshot` (main.py lines 341-363): locate the window; when none
is found return `(None, not-found message)` without capturing; otherwise
dispatch to the platform capture (Windows branch modelled). -/
def take_screenshot (app_name : String) (env : WinEnv) (ts : String)
    (directOk : Bool) : Option String × String :=
  match find_application_window app_name env with
  | none => (none, "Application " ++ sq ++ app_name ++ sq ++ " not found or not running")
  | some fw =>
    match boundsOf fw with
    | (l, t, w, h) => (screenshot_windows directOk l t w h (screenshotFilename app_name ts)).1

/-! ## DeliveryPipeline: `send_to_discord`, `cleanup_screenshot` -/

/-- Configuration fields of `ApplicationScreenshotter` read by the core
operations. -/
structure BotConfig where
  webhook_url : String
  app_name : String
  interval : Nat
  delete_after_send : Bool
  custom_message : String
  deriving DecidableEq

/-- The characters Python `str.strip()` removes: the Unicode whitespace set
of CPython (tab through carriage return, the separator controls 28-31,
space, NEL 133, NBSP 160, Ogham space mark 5760, the en-quad through
hair-space range 8192-8202, line separator 8232, paragraph separator 8233,
narrow NBSP 8239, medium mathematical space 8287, ideographic space
12288). -/
def pyIsSpaceChar (c : Char) : Bool :=
  let n := c.toNat
  decide ((9 ≤ n ∧ n ≤ 13) ∨ (28 ≤ n ∧ n ≤ 31) ∨ n = 32 ∨ n = 133 ∨ n = 160
    ∨ n = 5760 ∨ (8192 ≤ n ∧ n ≤ 8202) ∨ n = 8232 ∨ n = 8233 ∨ n = 8239
    ∨ n = 8287 ∨ n = 12288)

/-- Python truthiness of `s.strip()`: true when the string has at least one
character outside Python's whitespace set. -/
def pyStripTruthy (s : String) : Bool :=
  s.data.any (fun c => !pyIsSpaceChar c)

/-- The `content` entry of the multipart `data` dict in `send_to_discord`
(main.py lines 542-546): the formatted message when `custom_message.strip()`
is truthy, and the key is only added when the resulting content itself is
truthy (`if content:`). -/
def send_content (app_name custom_message : String) (dt : PyDateTime) : Option String :=
  let content : Option String :=
    if pyStripTruthy custom_message then some (format_message app_name custom_message dt)
    else none
  match content with
  | some s => if s ≠ "" then some s else none
  | none => none

/-- The ambient outcome of one `send_to_discord` call: whether
`open(filename)` succeeds, and the HTTP response status (`none` models
`requests.post` raising). -/
structure SendEnv where
  fileOpens : Bool
  httpResp : Option Nat
  deriving DecidableEq

/-- `send_to_discord` (main.py lines 535-556): any exception is caught as a
failure tuple; a 200 response is success; any other status is a failure
naming the code. -/
def send_to_discord (env : SendEnv) : Bool × String :=
  if !env.fileOpens then (false, "✗ Error sending to Discord: file error")
  else
    match env.httpResp with
    | none => (false, "✗ Error sending to Discord: network error")
    | some code =>
      if code = 200 then (true, "✓ Screenshot sent successfully")
      else (false, "✗ Failed to send screenshot. Status code: " ++ natToStr code)

/-- The success criterion of one send: the file opened and the POST returned
status 200. -/
def send_success (env : SendEnv) : Bool :=
  env.fileOpens && env.httpResp == some 200

/-- Filesystem as the set of existing paths. -/
def FS : Type := String → Bool

/-- `os.remove`: the path stops existing. -/
def fsRemove (fs : FS) (f : String) : FS :=
  fun g => if g == f then false else fs g

/-- `cleanup_screenshot` (main.py lines 558-566): with `delete_after_send`
the file is removed (an `os.remove` failure, here a missing file, is caught
and reported); otherwise the file is kept and reported as kept. -/
def cleanup_screenshot (delete_after_send : Bool) (fs : FS) (filename : String) :
    (Bool × String) × FS :=
  if delete_after_send then
    if fs filename then
      ((true, "✓ Deleted screenshot: " ++ filename), fsRemove fs filename)
    else ((false, "✗ Error deleting file " ++ filename), fs)
  else ((true, "Screenshot kept"), fs)

/-- Result of one `take_single_screenshot` call: the `(success, message)`
pair, the filesystem afterwards, and whether the send and cleanup calls were
reached (trace of the control flow). -/
structure ShotResult where
  ok : Bool
  msg : String
  fs : FS
  sent : Bool
  cleaned : Bool

/-- `take_single_screenshot` (main.py lines 568-583): refuse immediately when
webhook URL or app name is empty; otherwise, given the capture result
`captureRes` and the filesystem `fs` after the capture, send when the
returned filename is truthy and exists, clean up only on send success, and
keep the file on send failure. -/
def take_single_screenshot (cfg : BotConfig) (fs : FS)
    (captureRes : Option String × String) (senv : SendEnv) : ShotResult :=
  if cfg.webhook_url = "" ∨ cfg.app_name = "" then
    ⟨false, "Please configure webhook URL and application name first!", fs, false, false⟩
  else
    match captureRes with
    | (some filename, message) =>
      if filename != "" && fs filename then
        let s := send_to_discord senv
        if s.1 then
          let c := cleanup_screenshot cfg.delete_after_send fs filename
          ⟨true, message ++ "\n" ++ s.2 ++ "\n" ++ c.1.2, c.2, true, true⟩
        else
          ⟨false, message ++ "\n" ++ s.2 ++ "\nScreenshot kept due to send failure",
            fs, true, false⟩
      else ⟨false, "Failed to take screenshot: " ++ message, fs, false, false⟩
    | (none, message) => ⟨false, "Failed to take screenshot: " ++ message, fs, false, false⟩

/-! ## MonitorLoop: `start_monitoring`, `stop_monitoring` -/

/-- The monitoring state of `ApplicationScreenshotter`: the `running` flag
and the worker handle (`monitor_thread`), `none` before any start. -/
structure MonitorState where
  running : Bool
  monitor_thread : Option Nat
  deriving DecidableEq

/-- `start_monitoring` (main.py lines 585-597): configuration guard, then
the already-running guard; only on the success path is `running` set and a
fresh worker (`newThread`) spawned and stored. -/
def start_monitoring (cfg : BotConfig) (st : MonitorState) (newThread : Nat) :
    (Bool × String) × MonitorState :=
  if cfg.webhook_url = "" ∨ cfg.app_name = "" then
    ((false, "Please configure webhook URL and application name first!"), st)
  else if st.running then ((false, "Monitoring is already running!"), st)
  else
    ((true, "Started monitoring " ++ sq ++ cfg.app_name ++ sq ++ " every "
        ++ natToStr cfg.interval ++ " seconds"),
      ⟨true, some newThread⟩)

/-- `stop_monitoring` (main.py lines 610-618): failure when not running;
otherwise clear `running` and join the worker with a 2-second timeout.
`workerExited` records whether the join finished inside the timeout; the
code ignores the join outcome, so the result is independent of it. -/
def stop_monitoring (st : MonitorState) (workerExited : Bool) :
    (Bool × String) × MonitorState :=
  if !st.running then ((false, "Monitoring is not running!"), st)
  else
    let _ := workerExited
    ((true, "Stopped monitoring"), ⟨false, st.monitor_thread⟩)

/-! ## Template syntax apparatus for quantifying over message templates -/

/-- The placeholder names `format_message` recognizes (keys of its
`variables` dict, also listed in the console and GUI help text). -/
def recognized_variables : List String :=
  ["app_name", "timestamp", "date", "time", "day", "month", "year"]

/-- A building block of a message template: a literal character or a simple
named replacement field `\x7bname\x7d`. -/
inductive TemplateItem where
  | lit (c : Char)
  | field (name : String)
  deriving DecidableEq

/-- The characters an item contributes to the template text. -/
def itemChars : TemplateItem → List Char
  | .lit c => [c]
  | .field n => '\x7b' :: (n.data ++ ['\x7d'])

/-- The template text of a sequence of items. -/
def itemsChars : List TemplateItem → List Char
  | [] => []
  | i :: rest => itemChars i ++ itemsChars rest

/-- Characters allowed in a simple field name. -/
def isNameChar (c : Char) : Bool := c.isAlpha || c.isDigit || c == '_'

/-- A simple keyword field name: non-empty, made of name characters, and not
all digits (all-digit names are positional indices in `str.format`). -/
def validName (s : String) : Bool :=
  s != "" && s.data.all isNameChar && !(s.data.all Char.isDigit)

/-- Well-formedness of one item: a literal is not a brace, a field name is a
simple keyword name. -/
def itemOk : TemplateItem → Bool
  | .lit c => c != '\x7b' && c != '\x7d'
  | .field n => validName n

/-- The field names of a template, in order. -/
def fieldsOf (items : List TemplateItem) : List String :=
  items.filterMap (fun i => match i with | .field n => some n | .lit _ => none)

/-! ## Concrete fixtures used by the witness theorems -/

/-- A fully configured bot. -/
def wCfg : BotConfig :=
  ⟨"https://discord.example/webhook", "notepad", 60, true, "hello"⟩

/-- A filesystem holding exactly the captured screenshot. -/
def wFs : FS := fun f => f == "screenshots/shot.png"

/-- A send that succeeds with HTTP 200. -/
def wSendOk : SendEnv := ⟨true, some 200⟩

/-- A concrete wall-clock instant, 2024-01-15 14:30:25. -/
def wDt : PyDateTime := ⟨2024, 1, 15, 14, 30, 25⟩

/-- An environment with one matching visible window, one matching minimized
window, and one non-matching window. -/
def wEnv : WinEnv :=
  ⟨[⟨"calculator", true, 0, 0, 800, 600, false⟩,
    ⟨"my notepad file", true, 10, 10, 640, 480, true⟩,
    ⟨"notepad session", true, 20, 20, 800, 600, false⟩],
   [⟨"calc.exe", 4⟩], fun _ => []⟩

/-- An environment in which nothing matches `"notepad"`: one window without
the substring in its title, one invisible window, and one process whose name
does not match. -/
def cEnv : WinEnv :=
  ⟨[⟨"calculator", true, 0, 0, 800, 600, false⟩,
    ⟨"notepad hidden", false, 0, 0, 800, 600, false⟩],
   [⟨"calc.exe", 4⟩], fun _ => []⟩

/-! ## General helper lemmas -/

lemma data_eq_nil_iff (s : String) : s.data = [] ↔ s = "" := by
  constructor
  · intro h
    exact String.ext (by simpa using h)
  · intro h
    subst h
    rfl

lemma append_ne_empty_right (s t : String) (h : t ≠ "") : s ++ t ≠ "" := by
  intro hst
  apply h
  have hd := congrArg String.data hst
  rw [String.data_append] at hd
  rcases List.append_eq_nil.mp hd with ⟨-, h2⟩
  exact (data_eq_nil_iff t).mp h2

lemma append_ne_empty_left (s t : String) (h : s ≠ "") : s ++ t ≠ "" := by
  intro hst
  apply h
  have hd := congrArg String.data hst
  rw [String.data_append] at hd
  rcases List.append_eq_nil.mp hd with ⟨h1, -⟩
  exact (data_eq_nil_iff s).mp h1

/-! ## Step lemmas for the `str.format` model -/

lemma goFmtM_lit (vars : String → Option String) (c : Char) (r : List Char)
    (hc1 : c ≠ '\x7b') (hc2 : c ≠ '\x7d') :
    goFmtM vars none (c :: r) = (fun out => c :: out) <$> goFmtM vars none r := by
  rw [goFmtM] <;> simp [hc1, hc2]

lemma goFmtM_open (vars : String → Option String) (c0 : Char) (r : List Char)
    (hc0 : c0 ≠ '\x7b') :
    goFmtM vars none ('\x7b' :: c0 :: r) = goFmtM vars (some []) (c0 :: r) := by
  rw [goFmtM] <;> simp [hc0]

lemma goFmtM_escapeL (vars : String → Option String) (r : List Char) :
    goFmtM vars none ('\x7b' :: '\x7b' :: r)
      = (fun out => '\x7b' :: out) <$> goFmtM vars none r := by
  rw [goFmtM]

lemma goFmtM_escapeR (vars : String → Option String) (r : List Char) :
    goFmtM vars none ('\x7d' :: '\x7d' :: r)
      = (fun out => '\x7d' :: out) <$> goFmtM vars none r := by
  rw [goFmtM]

lemma goFmtM_field_step (vars : String → Option String) (acc : List Char)
    (c : Char) (r : List Char) (hc : c ≠ '\x7d') :
    goFmtM vars (some acc) (c :: r) = goFmtM vars (some (c :: acc)) r := by
  rw [goFmtM] <;> simp [hc]

lemma goFmtM_field_close (vars : String → Option String) (acc : List Char)
    (r : List Char) :
    goFmtM vars (some acc) ('\x7d' :: r)
      = (resolveField vars acc.reverse).bind
          (fun v => (goFmtM vars none r).bind (fun out => Except.ok (v ++ out))) := by
  rw [goFmtM]
  rfl

/-! ## C3: start/stop guards leave the monitor state unchanged -/

/-- C3: `start_monitoring` while already running fails and neither flips the
flag nor stores a new worker; `stop_monitoring` while not running fails and
changes nothing, so at most one worker is ever active. -/
theorem claim_C3_monitor_guards (cfg : BotConfig) (st st2 : MonitorState)
    (newThread : Nat) (workerExited : Bool)
    (hrun : st.running = true) (hstop : st2.running = false) :
    ((start_monitoring cfg st newThread).1.1 = false
      ∧ (start_monitoring cfg st newThread).2 = st)
    ∧ ((stop_monitoring st2 workerExited).1.1 = false
      ∧ (stop_monitoring st2 workerExited).2 = st2) := by
  unfold start_monitoring stop_monitoring
  rw [hrun, hstop]
  split_ifs <;> simp_all

/-- Witness for C3 at a concrete state. -/
theorem claim_C3_witness :
    (MonitorState.running ⟨true, some 0⟩ = true ∧ MonitorState.running ⟨false, none⟩ = false)
    ∧ (((start_monitoring wCfg ⟨true, some 0⟩ 1).1.1 = false
        ∧ (start_monitoring wCfg ⟨true, some 0⟩ 1).2 = ⟨true, some 0⟩)
      ∧ ((stop_monitoring ⟨false, none⟩ true).1.1 = false
        ∧ (stop_monitoring ⟨false, none⟩ true).2 = ⟨false, none⟩)) :=
  ⟨⟨rfl, rfl⟩, claim_C3_monitor_guards wCfg ⟨true, some 0⟩ ⟨false, none⟩ 1 true rfl rfl⟩

/-! ## C10: a successful stop always leaves `running = false` -/

/-- C10: whenever `stop_monitoring` reports success, the resulting state has
`running = false`, independently of whether the worker exited within the
2-second join timeout. -/
theorem claim_C10_stop_clears_running (st : MonitorState) (workerExited : Bool)
    (h : (stop_monitoring st workerExited).1.1 = true) :
    (stop_monitoring st workerExited).2.running = false := by
  unfold stop_monitoring at h ⊢
  split at h
  · exact absurd h (by simp)
  · rename_i hr
    simp only [Bool.not_eq_true'] at hr
    simp [hr]

/-- Witness for C10: a stop from a running state whose worker did NOT exit in
time still reports success and leaves the flag cleared. -/
theorem claim_C10_witness :
    (stop_monitoring ⟨true, some 7⟩ false).1.1 = true
    ∧ (stop_monitoring ⟨true, some 7⟩ false).2.running = false :=
  ⟨rfl, claim_C10_stop_clears_running ⟨true, some 7⟩ false rfl⟩

/-! ## C4: the Windows region-capture fallback geometry -/

/-- C4: in `_screenshot_windows`, every branch of the fallback returns the
file path; with positive original and shrunk geometry the captured region is
`(left + 8, top + 38, width - 16, height - 46)`; a non-positive original or
shrunk width/height falls back to a full-screen capture. -/
theorem claim_C4_region_geometry (directOk : Bool) (l t w h : Int) (fn : String) :
    (screenshot_windows directOk l t w h fn).1.1 = some fn
    ∧ (0 < w → 0 < h → 0 < w - 16 → 0 < h - 46 →
        region_capture_method l t w h
          = .region (l + 8) (t + 38) (w - 16) (h - 46))
    ∧ (w ≤ 0 ∨ h ≤ 0 ∨ w - 16 ≤ 0 ∨ h - 46 ≤ 0 →
        region_capture_method l t w h = .fullscreen) := by
  refine ⟨?_, ?_, ?_⟩
  · unfold screenshot_windows
    split_ifs <;> rfl
  · intro h1 h2 h3 h4
    simp only [region_capture_method]
    split_ifs with hc hd
    · exfalso
      rcases hc with hc | hc <;> omega
    · rw [CaptureMethod.region.injEq]
      refine ⟨rfl, by omega, by omega, by omega⟩
    · exact absurd ⟨by omega, by omega⟩ hd
  · intro hc
    simp only [region_capture_method]
    split_ifs with h1 h2
    · rfl
    · exfalso
      push_neg at h1
      rcases hc with hc | hc | hc | hc <;> omega
    · rfl

/-- Witness for C4 at a concrete 300x300 window at (100, 50). -/
theorem claim_C4_witness :
    ((screenshot_windows false 100 50 300 300 "screenshots/shot.png").1.1
        = some "screenshots/shot.png"
      ∧ (0 < (300 : Int) → 0 < (300 : Int) → 0 < (300 : Int) - 16 → 0 < (300 : Int) - 46 →
          region_capture_method 100 50 300 300
            = .region (100 + 8) (50 + 38) (300 - 16) (300 - 46))
      ∧ ((300 : Int) ≤ 0 ∨ (300 : Int) ≤ 0 ∨ (300 : Int) - 16 ≤ 0 ∨ (300 : Int) - 46 ≤ 0 →
          region_capture_method 100 50 300 300 = .fullscreen))
    ∧ region_capture_method 100 50 300 300 = .region 108 88 284 254 :=
  ⟨claim_C4_region_geometry false 100 50 300 300 "screenshots/shot.png", by decide⟩

/-! ## C9: the configuration guard of `take_single_screenshot` -/

/-- C9: with an empty webhook URL or app name, `take_single_screenshot`
fails immediately with the configuration message, leaves the filesystem
untouched, never reaches the send, and its result does not depend on the
capture outcome or the network at all (nothing is located or captured). -/
theorem claim_C9_config_guard (cfg : BotConfig) (fs : FS)
    (cr cr2 : Option String × String) (senv senv2 : SendEnv)
    (h : cfg.webhook_url = "" ∨ cfg.app_name = "") :
    take_single_screenshot cfg fs cr senv = take_single_screenshot cfg fs cr2 senv2
    ∧ (take_single_screenshot cfg fs cr senv).ok = false
    ∧ (take_single_screenshot cfg fs cr senv).msg
        = "Please configure webhook URL and application name first!"
    ∧ (take_single_screenshot cfg fs cr senv).fs = fs
    ∧ (take_single_screenshot cfg fs cr senv).sent = false := by
  unfold take_single_screenshot
  rw [if_pos h, if_pos h]
  exact ⟨rfl, rfl, rfl, rfl, rfl⟩

/-- Witness for C9: empty app name, a successful capture and a healthy
network — the call still fails with the configuration message. -/
theorem claim_C9_witness :
    (BotConfig.webhook_url ⟨"", "notepad", 60, true, "m"⟩ = ""
      ∨ BotConfig.app_name ⟨"", "notepad", 60, true, "m"⟩ = "")
    ∧ (take_single_screenshot ⟨"", "notepad", 60, true, "m"⟩ wFs
          (some "screenshots/shot.png", "ok") wSendOk
        = take_single_screenshot ⟨"", "notepad", 60, true, "m"⟩ wFs (none, "no") ⟨false, none⟩
      ∧ (take_single_screenshot ⟨"", "notepad", 60, true, "m"⟩ wFs
          (some "screenshots/shot.png", "ok") wSendOk).ok = false
      ∧ (take_single_screenshot ⟨"", "notepad", 60, true, "m"⟩ wFs
          (some "screenshots/shot.png", "ok") wSendOk).msg
          = "Please configure webhook URL and application name first!"
      ∧ (take_single_screenshot ⟨"", "notepad", 60, true, "m"⟩ wFs
          (some "screenshots/shot.png", "ok") wSendOk).fs = wFs
      ∧ (take_single_screenshot ⟨"", "notepad", 60, true, "m"⟩ wFs
          (some "screenshots/shot.png", "ok") wSendOk).sent = false) :=
  ⟨Or.inl rfl,
    claim_C9_config_guard ⟨"", "notepad", 60, true, "m"⟩ wFs
      (some "screenshots/shot.png", "ok") (none, "no") wSendOk ⟨false, none⟩ (Or.inl rfl)⟩

/-! ## C8: the example template renders exactly as specified -/

/-- C8: the template `Screenshot of \x7bapp_name\x7d - \x7btimestamp\x7d`
with app name `notepad` at local time 2024-01-15 14:30:25 renders to
`Screenshot of notepad - 2024-01-15 14:30:25`. -/
theorem claim_C8_example_render :
    format_message "notepad" "Screenshot of \x7bapp_name\x7d - \x7btimestamp\x7d" wDt
      = "Screenshot of notepad - 2024-01-15 14:30:25" := by
  rfl

/-! ## C1: delete-after-send iff the HTTP send succeeded -/

lemma send_to_discord_fst (senv : SendEnv) :
    (send_to_discord senv).1 = send_success senv := by
  unfold send_to_discord send_success
  rcases senv with ⟨fo, hr⟩
  cases fo
  · simp
  · cases hr with
    | none => simp
    | some code =>
      by_cases hcode : code = 200 <;> simp [hcode]

/-- C1: for a delivered capture (config set, capture produced an existing
file), the screenshot file is removed from the filesystem iff the send
succeeded and `delete_after_send` is set; no other path is touched; on send
failure the filesystem is exactly unchanged; the cleanup step runs iff the
send succeeded; and with `delete_after_send` unset the cleanup keeps the
file, reporting it kept. -/
theorem claim_C1_delete_iff (cfg : BotConfig) (fs : FS) (filename message : String)
    (senv : SendEnv)
    (hw : cfg.webhook_url ≠ "") (ha : cfg.app_name ≠ "")
    (hn : filename ≠ "") (hf : fs filename = true) :
    ((take_single_screenshot cfg fs (some filename, message) senv).fs filename = false
      ↔ (send_success senv = true ∧ cfg.delete_after_send = true))
    ∧ (∀ g, g ≠ filename →
        (take_single_screenshot cfg fs (some filename, message) senv).fs g = fs g)
    ∧ (send_success senv = false →
        (take_single_screenshot cfg fs (some filename, message) senv).fs = fs)
    ∧ ((take_single_screenshot cfg fs (some filename, message) senv).cleaned = true
      ↔ send_success senv = true)
    ∧ cleanup_screenshot false fs filename = ((true, "Screenshot kept"), fs) := by
  have hguard : ¬(cfg.webhook_url = "" ∨ cfg.app_name = "") := by
    simp [hw, ha]
  have hcond : (filename != "" && fs filename) = true := by
    simp [hn, hf]
  unfold take_single_screenshot
  rw [if_neg hguard]
  simp only [hcond, if_true]
  rw [send_to_discord_fst]
  cases hs : send_success senv
  · simp only [Bool.false_eq_true, if_false]
    exact ⟨by simp [hf], fun g _ => trivial, fun _ => trivial, trivial, rfl⟩
  · simp only [if_true]
    unfold cleanup_screenshot
    cases hd : cfg.delete_after_send
    · simp only [Bool.false_eq_true, if_false]
      exact ⟨by simp [hf], fun g _ => trivial, fun h2 => absurd h2 (by simp), trivial, trivial⟩
    · simp only [if_true, hf]
      refine ⟨by simp [fsRemove], ?_, fun h2 => absurd h2 (by simp), trivial, by simp⟩
      intro g hg
      simp [fsRemove, hg]

/-- Witness for C1: a successful send with `delete_after_send` set deletes
exactly the screenshot file. -/
theorem claim_C1_witness :
    (wCfg.webhook_url ≠ "" ∧ wCfg.app_name ≠ ""
      ∧ ("screenshots/shot.png" : String) ≠ "" ∧ wFs "screenshots/shot.png" = true)
    ∧ (((take_single_screenshot wCfg wFs (some "screenshots/shot.png", "cap") wSendOk).fs
          "screenshots/shot.png" = false
        ↔ (send_success wSendOk = true ∧ wCfg.delete_after_send = true))
      ∧ (∀ g, g ≠ "screenshots/shot.png" →
          (take_single_screenshot wCfg wFs (some "screenshots/shot.png", "cap") wSendOk).fs g
            = wFs g)
      ∧ (send_success wSendOk = false →
          (take_single_screenshot wCfg wFs (some "screenshots/shot.png", "cap") wSendOk).fs
            = wFs)
      ∧ ((take_single_screenshot wCfg wFs (some "screenshots/shot.png", "cap") wSendOk).cleaned
          = true ↔ send_success wSendOk = true)
      ∧ cleanup_screenshot false wFs "screenshots/shot.png"
          = ((true, "Screenshot kept"), wFs)) :=
  ⟨⟨by decide, by decide, by decide, rfl⟩,
    claim_C1_delete_iff wCfg wFs "screenshots/shot.png" "cap" wSendOk
      (by decide) (by decide) (by decide) rfl⟩

/-! ## C6: the Windows title pass -/

lemma strContains_empty_hay (needle : String) (h : needle ≠ "") :
    strContains "" needle = false := by
  unfold strContains strContainsAux
  show needle.data.isEmpty = false
  cases hd : needle.data with
  | nil => exact absurd ((data_eq_nil_iff needle).mp hd) h
  | cons c r => rfl

lemma strLower_empty : strLower "" = "" := rfl

lemma titleMatch_eq_spec_pred (app_name : String) (ha : app_name ≠ "")
    (w : GWWindow) :
    titleMatch app_name w
      = (w.visible && strContains (strLower w.title) app_name
          && decide (0 < w.width) && decide (0 < w.height)) := by
  unfold titleMatch
  by_cases ht : w.title = ""
  · rw [ht, strLower_empty, strContains_empty_hay app_name ha]
    simp
  · have : (w.title != "") = true := by simp [ht]
    rw [this]
    cases hc : strContains (strLower w.title) app_name <;>
      cases hv : w.visible <;> simp

/-- C6: the title pass keeps exactly the visible windows whose lowercased
title contains `app_name` with positive width and height (its extra
non-empty-title test is redundant for a non-empty `app_name`); among the
matches it returns the first non-minimized one, and the first match when
every match is minimized. -/
theorem claim_C6_title_pass (app_name : String) (env : WinEnv)
    (m : GWWindow) (rest : List GWWindow) (ha : app_name ≠ "")
    (hm : env.windows.filter (titleMatch app_name) = m :: rest) :
    env.windows.filter (titleMatch app_name)
      = env.windows.filter (fun w =>
          w.visible && strContains (strLower w.title) app_name
            && decide (0 < w.width) && decide (0 < w.height))
    ∧ find_application_window app_name env
      = some (.byTitle (((m :: rest).find? (fun w => !w.minimized)).getD m))
    ∧ ((∀ w ∈ m :: rest, w.minimized = true) →
        find_application_window app_name env = some (.byTitle m)) := by
  refine ⟨List.filter_congr (fun w _ => titleMatch_eq_spec_pred app_name ha w), ?_, ?_⟩
  · unfold find_application_window
    rw [hm]
  · intro hall
    unfold find_application_window
    rw [hm]
    have hnone : (m :: rest).find? (fun w => !w.minimized) = none := by
      rw [List.find?_eq_none]
      intro x hx
      simp [hall x hx]
    simp [hnone]

/-- Witness for C6 on a three-window environment: the filter keeps the two
matching windows and the non-minimized one is returned. -/
theorem claim_C6_witness :
    (("notepad" : String) ≠ ""
      ∧ wEnv.windows.filter (titleMatch "notepad")
          = [⟨"my notepad file", true, 10, 10, 640, 480, true⟩,
             ⟨"notepad session", true, 20, 20, 800, 600, false⟩])
    ∧ (wEnv.windows.filter (titleMatch "notepad")
        = wEnv.windows.filter (fun w =>
            w.visible && strContains (strLower w.title) "notepad"
              && decide (0 < w.width) && decide (0 < w.height))
      ∧ find_application_window "notepad" wEnv
        = some (.byTitle
            ((([⟨"my notepad file", true, 10, 10, 640, 480, true⟩,
                ⟨"notepad session", true, 20, 20, 800, 600, false⟩]
                  : List GWWindow).find? (fun w => !w.minimized)).getD
              ⟨"my notepad file", true, 10, 10, 640, 480, true⟩))
      ∧ ((∀ w ∈ ([⟨"my notepad file", true, 10, 10, 640, 480, true⟩,
            ⟨"notepad session", true, 20, 20, 800, 600, false⟩] : List GWWindow),
            w.minimized = true) →
          find_application_window "notepad" wEnv
            = some (.byTitle ⟨"my notepad file", true, 10, 10, 640, 480, true⟩))) :=
  ⟨⟨by decide, by decide⟩,
    claim_C6_title_pass "notepad" wEnv
      ⟨"my notepad file", true, 10, 10, 640, 480, true⟩
      [⟨"notepad session", true, 20, 20, 800, 600, false⟩]
      (by decide) (by decide)⟩

/-! ## C2: locate failure means no capture at all (corrected) -/

/-- Counterexample to C2 as stated: in an environment where no window title
matches and no process name matches, `find_application_window` does return
`None`, but `take_screenshot` then returns a null filepath with the
not-found message — the full-screen fallback is not reached. -/
theorem claim_C2_counterexample :
    find_application_window "notepad" cEnv = none
    ∧ (take_screenshot "notepad" cEnv "20240115_143025" false).1 = none
    ∧ (take_screenshot "notepad" cEnv "20240115_143025" false).2
        = "Application " ++ sq ++ "notepad" ++ sq ++ " not found or not running" := by
  refine ⟨by decide, by decide, by decide⟩

/-- C2 amended: for every `app_name` with no matching window and no matching
process, `find_application_window` returns `None` (never raising in this
snapshot model), and `take_screenshot` returns a null filepath with the
not-found message — no capture, and in particular no full-screen fallback,
happens when locate fails. -/
theorem claim_C2_locate_notfound (app_name : String) (env : WinEnv)
    (ts : String) (directOk : Bool)
    (h1 : ∀ w ∈ env.windows, titleMatch app_name w = false)
    (h2 : ∀ p ∈ env.procs, procNameMatches app_name p = false) :
    find_application_window app_name env = none
    ∧ take_screenshot app_name env ts directOk
        = (none, "Application " ++ sq ++ app_name ++ sq ++ " not found or not running") := by
  have hfilter : env.windows.filter (titleMatch app_name) = [] := by
    rw [List.filter_eq_nil]
    intro w hw
    simp [h1 w hw]
  have hfind : find_application_window app_name env = none := by
    unfold find_application_window
    rw [hfilter]
    rw [List.findSome?_eq_none]
    intro p hp
    unfold procHit
    rw [h2 p hp]
    rfl
  refine ⟨hfind, ?_⟩
  unfold take_screenshot
  rw [hfind]

/-- Witness for the amended C2 on the concrete no-match environment. -/
theorem claim_C2_witness :
    ((∀ w ∈ cEnv.windows, titleMatch "wordpad" w = false)
      ∧ (∀ p ∈ cEnv.procs, procNameMatches "wordpad" p = false))
    ∧ (find_application_window "wordpad" cEnv = none
      ∧ take_screenshot "wordpad" cEnv "20240115_143025" true
          = (none, "Application " ++ sq ++ "wordpad" ++ sq ++ " not found or not running")) :=
  ⟨⟨by decide, by decide⟩,
    claim_C2_locate_notfound "wordpad" cEnv "20240115_143025" true (by decide) (by decide)⟩

/-! ## Non-emptiness of the substituted values (shared by C5 and C7) -/

lemma digitsGo_length_ge (fuel : Nat) :
    ∀ m acc, acc.length ≤ (digitsGo fuel m acc).length := by
  induction fuel with
  | zero => intro m acc; rfl
  | succ f ih =>
    intro m acc
    unfold digitsGo
    split_ifs
    · exact le_refl _
    · calc acc.length ≤ (digitChar (m % 10) :: acc).length := by simp
        _ ≤ _ := ih (m / 10) _

lemma natToStr_ne_empty (n : Nat) (h : n ≠ 0) : natToStr n ≠ "" := by
  unfold natToStr
  rw [if_neg h]
  intro hcontr
  have hd : digitsGo n n [] = [] := by
    have := congrArg String.data hcontr
    simpa using this
  obtain ⟨k, rfl⟩ := Nat.exists_eq_succ_of_ne_zero h
  have h1 : (1 : Nat) ≤ (digitsGo (k + 1) (k + 1) []).length := by
    unfold digitsGo
    rw [if_neg (Nat.succ_ne_zero k)]
    calc (1 : Nat) = [digitChar ((k + 1) % 10)].length := by simp
      _ ≤ _ := digitsGo_length_ge k _ _
  rw [hd] at h1
  simp at h1

lemma pad4_ne_empty (n : Nat) : pad4 n ≠ "" := by
  unfold pad4
  split_ifs with h1 h2 h3
  · exact append_ne_empty_left _ _ (by decide)
  · exact append_ne_empty_left _ _ (by decide)
  · exact append_ne_empty_left _ _ (by decide)
  · exact natToStr_ne_empty n (by omega)

lemma dateStr_ne_empty (dt : PyDateTime) : dateStr dt ≠ "" := by
  unfold dateStr
  exact append_ne_empty_left _ _ (append_ne_empty_right _ _ (by decide))

lemma timeStr_ne_empty (dt : PyDateTime) : timeStr dt ≠ "" := by
  unfold timeStr
  exact append_ne_empty_left _ _ (append_ne_empty_right _ _ (by decide))

lemma timestampStr_ne_empty (dt : PyDateTime) : timestampStr dt ≠ "" := by
  unfold timestampStr
  exact append_ne_empty_right _ _ (timeStr_ne_empty dt)

lemma dayName_ne_empty (k : Nat) : dayName k ≠ "" := by
  rcases k with _ | _ | _ | _ | _ | _ | k
  all_goals first
  | decide
  | exact (by decide : ("Saturday" : String) ≠ "")

lemma monthName_ne_empty (m : Nat) (h1 : 1 ≤ m) (h2 : m ≤ 12) :
    monthName m ≠ "" := by
  interval_cases m <;> decide

lemma varsOf_values_ne_empty (app_name : String) (dt : PyDateTime)
    (ha : app_name ≠ "") (hm : 1 ≤ dt.month ∧ dt.month ≤ 12) :
    ∀ n v, varsOf app_name dt n = some v → v ≠ "" := by
  intro n v h
  unfold varsOf at h
  split_ifs at h <;>
    first
    | (cases h; assumption)
    | (cases h; exact timestampStr_ne_empty dt)
    | (cases h; exact dateStr_ne_empty dt)
    | (cases h; exact timeStr_ne_empty dt)
    | (cases h; exact dayName_ne_empty _)
    | (cases h; exact monthName_ne_empty _ hm.1 hm.2)
    | (cases h; exact pad4_ne_empty _)
    | exact absurd h (by simp)


/-! ## C7: an unknown placeholder yields the unknown-variable error string -/

lemma isNameChar_ne (c : Char) (h : isNameChar c = true) :
    c ≠ '.' ∧ c ≠ '[' ∧ c ≠ '!' ∧ c ≠ ':' ∧ c ≠ '\x7b' ∧ c ≠ '\x7d' := by
  refine ⟨?_, ?_, ?_, ?_, ?_, ?_⟩ <;> rintro rfl <;> exact absurd h (by decide)

lemma validName_parts (n : String) (h : validName n = true) :
    n ≠ "" ∧ (∀ c ∈ n.data, isNameChar c = true) ∧ n.data.all Char.isDigit = false := by
  unfold validName at h
  simp only [Bool.and_eq_true, bne_iff_ne, Bool.not_eq_true'] at h
  exact ⟨h.1.1, List.all_eq_true.mp h.1.2, h.2⟩

lemma takeWhile_eq_self_of_all (p : Char → Bool) (l : List Char)
    (h : ∀ c ∈ l, p c = true) : l.takeWhile p = l := by
  induction l with
  | nil => rfl
  | cons c r ih =>
    rw [List.takeWhile_cons, h c (List.mem_cons_self _ _)]
    simp [ih (fun x hx => h x (List.mem_cons_of_mem _ hx))]

lemma resolveField_valid (vars : String → Option String) (n : String)
    (hvn : validName n = true) :
    resolveField vars n.data
      = (match vars n with
          | some v => Except.ok v.data
          | none => Except.error (.keyError n)) := by
  obtain ⟨hne, hall, hdig⟩ := validName_parts n hvn
  have hp : ∀ c ∈ n.data, (!(c == '.' || c == '[' || c == '!' || c == ':')) = true := by
    intro c hc
    obtain ⟨h1, h2, h3, h4, -, -⟩ := isNameChar_ne c (hall c hc)
    simp [h1, h2, h3, h4]
  have htake : n.data.takeWhile (fun c => !(c == '.' || c == '[' || c == '!' || c == ':'))
      = n.data := takeWhile_eq_self_of_all _ n.data hp
  have hie : (n.data.isEmpty || n.data.all Char.isDigit) = false := by
    have hd : n.data ≠ [] := fun hnil => hne ((data_eq_nil_iff n).mp hnil)
    simp [hd, hdig]
  simp only [resolveField]
  rw [htake, List.drop_length, hie]
  simp only [show String.mk n.data = n from rfl]
  cases hv : vars n <;> rfl

lemma goFmtM_field_traverse (vars : String → Option String) :
    ∀ (nm acc tail : List Char), (∀ c ∈ nm, isNameChar c = true) →
      goFmtM vars (some acc) (nm ++ '\x7d' :: tail)
        = goFmtM vars (some (nm.reverse ++ acc)) ('\x7d' :: tail) := by
  intro nm
  induction nm with
  | nil => intro acc tail _; simp
  | cons c cs ih =>
    intro acc tail hall
    have hc : c ≠ '\x7d' :=
      (isNameChar_ne c (hall c (List.mem_cons_self c cs))).2.2.2.2.2
    rw [List.cons_append, goFmtM_field_step vars acc c _ hc,
      ih (c :: acc) tail (fun x hx => hall x (List.mem_cons_of_mem c hx))]
    congr 1
    simp

lemma fieldsOf_cons_lit (c : Char) (rest : List TemplateItem) :
    fieldsOf (.lit c :: rest) = fieldsOf rest := rfl

lemma fieldsOf_cons_field (n : String) (rest : List TemplateItem) :
    fieldsOf (.field n :: rest) = n :: fieldsOf rest := rfl

lemma goFmtM_items_first_unknown (vars : String → Option String) :
    ∀ (items : List TemplateItem) (v : String),
      (∀ i ∈ items, itemOk i = true) →
      (fieldsOf items).find? (fun n => (vars n).isNone) = some v →
      goFmtM vars none (itemsChars items) = .error (.keyError v) := by
  intro items
  induction items with
  | nil =>
    intro v _ hu
    simp [fieldsOf] at hu
  | cons i rest ih =>
    intro v hok hu
    have hokrest : ∀ j ∈ rest, itemOk j = true :=
      fun j hj => hok j (List.mem_cons_of_mem i hj)
    cases i with
    | lit c =>
      have hlit : (c != '\x7b' && c != '\x7d') = true :=
        hok (.lit c) (List.mem_cons_self _ _)
      simp only [Bool.and_eq_true, bne_iff_ne] at hlit
      rw [fieldsOf_cons_lit] at hu
      have hstep : itemsChars (.lit c :: rest) = c :: itemsChars rest := rfl
      rw [hstep, goFmtM_lit vars c _ hlit.1 hlit.2, ih v hokrest hu]
      rfl
    | field n =>
      have hvn : validName n = true := hok (.field n) (List.mem_cons_self _ _)
      obtain ⟨hne, hall, -⟩ := validName_parts n hvn
      rw [fieldsOf_cons_field] at hu
      obtain ⟨c0, cs, hdata⟩ : ∃ c0 cs, n.data = c0 :: cs := by
        cases hd : n.data with
        | nil => exact absurd ((data_eq_nil_iff n).mp hd) hne
        | cons c0 cs => exact ⟨c0, cs, rfl⟩
      have hc0 : isNameChar c0 = true :=
        hall c0 (by rw [hdata]; exact List.mem_cons_self _ _)
      have hchars : itemsChars (.field n :: rest)
          = '\x7b' :: (c0 :: cs) ++ '\x7d' :: itemsChars rest := by
        show ('\x7b' :: (n.data ++ ['\x7d'])) ++ itemsChars rest = _
        rw [hdata]
        simp
      rw [hchars]
      have hopen : goFmtM vars none ('\x7b' :: (c0 :: cs) ++ '\x7d' :: itemsChars rest)
          = goFmtM vars (some []) ((c0 :: cs) ++ '\x7d' :: itemsChars rest) := by
        rw [List.cons_append]
        exact goFmtM_open vars c0 _ (isNameChar_ne c0 hc0).2.2.2.2.1
      rw [hopen,
        goFmtM_field_traverse vars (c0 :: cs) [] _ (by rw [← hdata]; exact hall),
        goFmtM_field_close]
      have hrev : ((c0 :: cs).reverse ++ ([] : List Char)).reverse = n.data := by
        rw [List.append_nil, List.reverse_reverse, hdata]
      rw [hrev, resolveField_valid vars n hvn]
      cases hv : vars n with
      | none =>
        have hfind : List.find? (fun m => (vars m).isNone) (n :: fieldsOf rest)
            = some n :=
          List.find?_cons_of_pos (p := fun m => (vars m).isNone) _ (by simp [hv])
        rw [hfind] at hu
        cases hu
        rfl
      | some s =>
        have hfind : List.find? (fun m => (vars m).isNone) (n :: fieldsOf rest)
            = List.find? (fun m => (vars m).isNone) (fieldsOf rest) :=
          List.find?_cons_of_neg (p := fun m => (vars m).isNone) _ (by simp [hv])
        rw [hfind] at hu
        rw [ih v hokrest hu]
        rfl

lemma field_mem_of_fields_mem (items : List TemplateItem) (v : String)
    (h : v ∈ fieldsOf items) : TemplateItem.field v ∈ items := by
  unfold fieldsOf at h
  rw [List.mem_filterMap] at h
  obtain ⟨i, hi, hfi⟩ := h
  cases i with
  | lit c => cases hfi
  | field n =>
    have : n = v := by
      injection hfi
    subst this
    exact hi

lemma lbrace_mem_itemsChars (items : List TemplateItem) (v : String)
    (h : TemplateItem.field v ∈ items) : '\x7b' ∈ itemsChars items := by
  induction items with
  | nil => cases h
  | cons i rest ih =>
    rcases List.mem_cons.mp h with hh | ht
    · subst hh
      show '\x7b' ∈ ('\x7b' :: (v.data ++ ['\x7d'])) ++ itemsChars rest
      exact List.mem_cons_self ..
    · exact List.mem_append_right _ (ih ht)

/-- C7: for every well-formed template (a sequence of literal characters and
simple named placeholders) containing a placeholder outside the recognized
set — equivalently, outside the keys of the `variables` dict — the formatted
message is the explanatory error string naming the first unknown variable,
and the send still proceeds with that string as the `content` field. -/
theorem claim_C7_unknown_placeholder (app_name : String) (dt : PyDateTime)
    (items : List TemplateItem) (v : String)
    (hok : ∀ i ∈ items, itemOk i = true)
    (hu : (fieldsOf items).find? (fun n => (varsOf app_name dt n).isNone) = some v) :
    (∀ n, (varsOf app_name dt n).isNone = true ↔ n ∉ recognized_variables)
    ∧ format_message app_name (String.mk (itemsChars items)) dt
        = "Error in message format: Unknown variable " ++ sq ++ v ++ sq
    ∧ send_content app_name (String.mk (itemsChars items)) dt
        = some ("Error in message format: Unknown variable " ++ sq ++ v ++ sq) := by
  have hkey := goFmtM_items_first_unknown (varsOf app_name dt) items v hok hu
  have hfmt : format_message app_name (String.mk (itemsChars items)) dt
      = "Error in message format: Unknown variable " ++ sq ++ v ++ sq := by
    unfold format_message
    rw [show (String.mk (itemsChars items)).data = itemsChars items from rfl, hkey]
  have hiso : ∀ n, (varsOf app_name dt n).isNone = true ↔ n ∉ recognized_variables := by
    intro n
    unfold varsOf recognized_variables
    split_ifs with h1 h2 h3 h4 h5 h6 h7 <;> simp_all
  refine ⟨hiso, hfmt, ?_⟩
  have hmemv : TemplateItem.field v ∈ items :=
    field_mem_of_fields_mem items v (List.mem_of_find?_eq_some hu)
  have hstrip : pyStripTruthy (String.mk (itemsChars items)) = true := by
    unfold pyStripTruthy
    rw [List.any_eq_true]
    exact ⟨'\x7b', lbrace_mem_itemsChars items v hmemv, by decide⟩
  unfold send_content
  rw [hstrip]
  simp only [if_true]
  rw [hfmt, if_pos]
  exact append_ne_empty_left _ _
    (append_ne_empty_left _ _ (append_ne_empty_left _ _ (by decide)))

/-- Witness for C7: the template `hello \x7buser\x7d \x7bapp_name\x7d` has
the unknown placeholder `user`; the message becomes the unknown-variable
error string, still attached as content. -/
theorem claim_C7_witness :
    ((∀ i ∈ [TemplateItem.lit 'h', TemplateItem.lit 'i', TemplateItem.lit ' ',
        TemplateItem.field "user", TemplateItem.lit ' ',
        TemplateItem.field "app_name"], itemOk i = true)
      ∧ (fieldsOf [TemplateItem.lit 'h', TemplateItem.lit 'i', TemplateItem.lit ' ',
            TemplateItem.field "user", TemplateItem.lit ' ',
            TemplateItem.field "app_name"]).find?
          (fun n => (varsOf "notepad" wDt n).isNone) = some "user")
    ∧ ((∀ n, (varsOf "notepad" wDt n).isNone = true ↔ n ∉ recognized_variables)
      ∧ format_message "notepad"
          (String.mk (itemsChars [TemplateItem.lit 'h', TemplateItem.lit 'i',
            TemplateItem.lit ' ', TemplateItem.field "user", TemplateItem.lit ' ',
            TemplateItem.field "app_name"])) wDt
          = "Error in message format: Unknown variable " ++ sq ++ "user" ++ sq
      ∧ send_content "notepad"
          (String.mk (itemsChars [TemplateItem.lit 'h', TemplateItem.lit 'i',
            TemplateItem.lit ' ', TemplateItem.field "user", TemplateItem.lit ' ',
            TemplateItem.field "app_name"])) wDt
          = some ("Error in message format: Unknown variable " ++ sq ++ "user" ++ sq)) :=
  ⟨⟨by decide, by decide⟩,
    claim_C7_unknown_placeholder "notepad" wDt
      [TemplateItem.lit 'h', TemplateItem.lit 'i', TemplateItem.lit ' ',
        TemplateItem.field "user", TemplateItem.lit ' ', TemplateItem.field "app_name"]
      "user" (by decide) (by decide)⟩

/-! ## C5 (corrected): the content field follows the substituted message -/

lemma items_ne_nil_of_strip (items : List TemplateItem)
    (h : pyStripTruthy (String.mk (itemsChars items)) = true) : items ≠ [] := by
  intro hcontr
  subst hcontr
  simp [pyStripTruthy, itemsChars] at h

lemma goFmtM_items_ok_ne_nil (vars : String → Option String)
    (hv : ∀ n v, vars n = some v → v ≠ "") :
    ∀ (items : List TemplateItem) (out : List Char),
      (∀ i ∈ items, itemOk i = true) → items ≠ [] →
      goFmtM vars none (itemsChars items) = .ok out → out ≠ [] := by
  intro items out hok hne h
  match items with
  | [] => exact absurd rfl hne
  | i :: rest =>
    cases i with
    | lit c =>
      have hlit : (c != '\x7b' && c != '\x7d') = true :=
        hok (.lit c) (List.mem_cons_self _ _)
      simp only [Bool.and_eq_true, bne_iff_ne] at hlit
      have hstep : itemsChars (.lit c :: rest) = c :: itemsChars rest := rfl
      rw [hstep, goFmtM_lit vars c _ hlit.1 hlit.2] at h
      cases hrest : goFmtM vars none (itemsChars rest) with
      | error e => rw [hrest] at h; cases h
      | ok out2 =>
        rw [hrest] at h
        cases h
        simp
    | field n =>
      have hvn : validName n = true := hok (.field n) (List.mem_cons_self _ _)
      obtain ⟨hnn, hall, -⟩ := validName_parts n hvn
      obtain ⟨c0, cs, hdata⟩ : ∃ c0 cs, n.data = c0 :: cs := by
        cases hd : n.data with
        | nil => exact absurd ((data_eq_nil_iff n).mp hd) hnn
        | cons c0 cs => exact ⟨c0, cs, rfl⟩
      have hc0 : isNameChar c0 = true :=
        hall c0 (by rw [hdata]; exact List.mem_cons_self _ _)
      have hchars : itemsChars (.field n :: rest)
          = '\x7b' :: (c0 :: cs) ++ '\x7d' :: itemsChars rest := by
        show ('\x7b' :: (n.data ++ ['\x7d'])) ++ itemsChars rest = _
        rw [hdata]
        simp
      rw [hchars] at h
      have hopen : goFmtM vars none ('\x7b' :: (c0 :: cs) ++ '\x7d' :: itemsChars rest)
          = goFmtM vars (some []) ((c0 :: cs) ++ '\x7d' :: itemsChars rest) := by
        rw [List.cons_append]
        exact goFmtM_open vars c0 _ (isNameChar_ne c0 hc0).2.2.2.2.1
      rw [hopen,
        goFmtM_field_traverse vars (c0 :: cs) [] _ (by rw [← hdata]; exact hall),
        goFmtM_field_close] at h
      have hrev : ((c0 :: cs).reverse ++ ([] : List Char)).reverse = n.data := by
        rw [List.append_nil, List.reverse_reverse, hdata]
      rw [hrev, resolveField_valid vars n hvn] at h
      cases hval : vars n with
      | none =>
        rw [hval] at h
        cases h
      | some s =>
        rw [hval] at h
        cases hrest : goFmtM vars none (itemsChars rest) with
        | error e =>
          rw [hrest] at h
          cases h
        | ok out2 =>
          rw [hrest] at h
          simp only [Except.bind] at h
          cases h
          have hs : s.data ≠ [] := fun hnil =>
            hv _ _ hval ((data_eq_nil_iff s).mp hnil)
          simp [hs]

lemma format_message_items_ne_empty (app_name : String) (dt : PyDateTime)
    (items : List TemplateItem) (ha : app_name ≠ "")
    (hm : 1 ≤ dt.month ∧ dt.month ≤ 12)
    (hok : ∀ i ∈ items, itemOk i = true) (hne : items ≠ []) :
    format_message app_name (String.mk (itemsChars items)) dt ≠ "" := by
  unfold format_message
  cases hg : goFmtM (varsOf app_name dt) none (String.mk (itemsChars items)).data with
  | ok out =>
    have hout : out ≠ [] :=
      goFmtM_items_ok_ne_nil (varsOf app_name dt)
        (varsOf_values_ne_empty app_name dt ha hm) items out hok hne hg
    intro hcontr
    exact hout (by simpa using congrArg String.data hcontr)
  | error e =>
    cases e with
    | keyError name =>
      exact append_ne_empty_left _ _
        (append_ne_empty_left _ _ (append_ne_empty_left _ _ (by decide)))
    | indexError => exact append_ne_empty_left _ _ (by decide)
    | singleLbrace => exact append_ne_empty_left _ _ (by decide)
    | singleRbrace => exact append_ne_empty_left _ _ (by decide)
    | badField => exact append_ne_empty_left _ _ (by decide)

/-- Counterexample to C5 as stated: `\x7bapp_name:.0s\x7d` is a non-empty
(and not whitespace-only) template, yet its precision-0 format spec
substitutes to the empty string, and `send_to_discord` then omits the
`content` key — an image-only post from a non-empty template. -/
theorem claim_C5_counterexample :
    ("\x7bapp_name:.0s\x7d" : String) ≠ ""
    ∧ pyStripTruthy "\x7bapp_name:.0s\x7d" = true
    ∧ format_message "notepad" "\x7bapp_name:.0s\x7d" wDt = ""
    ∧ send_content "notepad" "\x7bapp_name:.0s\x7d" wDt = none :=
  ⟨by decide, by decide, by rfl, by rfl⟩

/-- C5 (amended): an empty or whitespace-only template (Python's whitespace
set) posts image-only; a non-empty template attaches a `content` field
holding the substituted message exactly when that substitution is itself
non-empty.  The substitution is non-empty for every template of literals and
simple named placeholders with a configured app name; a format spec such as
`\x7bapp_name:.0s\x7d` can shrink it to the empty string, and then the
`content` key is omitted even though the template is non-empty. -/
theorem claim_C5_content_field (app_name custom_message : String)
    (dt : PyDateTime) (items : List TemplateItem)
    (hm : 1 ≤ dt.month ∧ dt.month ≤ 12) :
    (pyStripTruthy custom_message = false →
      send_content app_name custom_message dt = none)
    ∧ (pyStripTruthy custom_message = true →
      send_content app_name custom_message dt
        = if format_message app_name custom_message dt ≠ ""
          then some (format_message app_name custom_message dt) else none)
    ∧ ((∀ i ∈ items, itemOk i = true) →
      pyStripTruthy (String.mk (itemsChars items)) = true → app_name ≠ "" →
      send_content app_name (String.mk (itemsChars items)) dt
        = some (format_message app_name (String.mk (itemsChars items)) dt)) := by
  refine ⟨?_, ?_, ?_⟩
  · intro h
    unfold send_content
    rw [h]
    rfl
  · intro h
    unfold send_content
    rw [h]
    rfl
  · intro hok hstrip ha
    have hne := items_ne_nil_of_strip items hstrip
    have hfm := format_message_items_ne_empty app_name dt items ha hm hok hne
    unfold send_content
    rw [hstrip]
    simp only [if_true]
    rw [if_pos hfm]

/-- Witness for the amended C5: a template of unicode whitespace only posts
image-only, and the simple template `\x7bapp_name\x7d` attaches the
substituted message. -/
theorem claim_C5_witness :
    ((1 ≤ wDt.month ∧ wDt.month ≤ 12)
      ∧ pyStripTruthy " \u00A0 " = false
      ∧ pyStripTruthy (String.mk (itemsChars [TemplateItem.field "app_name"])) = true
      ∧ send_content "notepad" (String.mk (itemsChars [TemplateItem.field "app_name"])) wDt
          = some "notepad")
    ∧ ((pyStripTruthy " \u00A0 " = false → send_content "notepad" " \u00A0 " wDt = none)
      ∧ (pyStripTruthy " \u00A0 " = true →
        send_content "notepad" " \u00A0 " wDt
          = if format_message "notepad" " \u00A0 " wDt ≠ ""
            then some (format_message "notepad" " \u00A0 " wDt) else none)
      ∧ ((∀ i ∈ [TemplateItem.field "app_name"], itemOk i = true) →
        pyStripTruthy (String.mk (itemsChars [TemplateItem.field "app_name"])) = true →
        ("notepad" : String) ≠ "" →
        send_content "notepad" (String.mk (itemsChars [TemplateItem.field "app_name"])) wDt
          = some (format_message "notepad"
              (String.mk (itemsChars [TemplateItem.field "app_name"])) wDt))) :=
  ⟨⟨⟨by decide, by decide⟩, by decide, by decide, by decide⟩,
    claim_C5_content_field "notepad" " \u00A0 " wDt [TemplateItem.field "app_name"]
      ⟨by decide, by decide⟩⟩

end ScreenshotBot
